import Mathlib

/-!
Verification of the semantic-analysis core of the atlantis-vip language
(scope resolution, type lattice with assignability, memoized type inference).

The definitions below are a shallow embedding of the TypeScript sources:
  - src/language/type-system/descriptions.ts  (type descriptions, grammarTypeToTypeDescription)
  - src/language/type-system/infer.ts         (inferType and helpers, isAssignable)
  - src/language/atlantis-vip-scope.ts        (AtlantisVipScopeProvider.getVariableScope)

JS Map objects are embedded as association lists whose set operation replaces
an existing binding in place (exactly the JS Map key semantics for get and set).
AST nodes live in an arena and are addressed by integer ids; object references
(node.$container, reference.ref, child properties) become ids, and the memo
map keyed by node identity becomes a map keyed by id.
-/

/-- Association-list get: first binding wins; mirrors the JS Map get method
under the invariant that the set operation below never duplicates a key. -/
def aget {α β : Type} [DecidableEq α] : List (α × β) → α → Option β
  | [], _ => none
  | (k, v) :: rest, k' => if k = k' then some v else aget rest k'

/-- Association-list set: replace the binding in place when the key exists,
append at the end otherwise; mirrors the JS Map set method. -/
def aset {α β : Type} [DecidableEq α] : List (α × β) → α → β → List (α × β)
  | [], k, v => [(k, v)]
  | (k', v') :: rest, k, v =>
    if k' = k then (k, v) :: rest else (k', v') :: aset rest k v

/-- The closed set of type descriptions from descriptions.ts.
Literal back-references and error source nodes are kept as arena node ids.
Record fields embed the Map of field name to field type. -/
inductive TypeDescription : Type where
  | error (message : String) (source : Option Nat)
  | boolean (literal : Option Nat)
  | number (literal : Option Nat) (precision scale : Option Nat)
  | string (literal : Option Nat) (length : Option Nat)
  | date
  | time
  | datetime
  | array (elementType : TypeDescription) (rightBound : Nat) (leftBound : Option Nat)
  | record (fields : List (String × TypeDescription))
  | user (baseType : TypeDescription)
  | unknown

/-- The discriminant string stored in the dollar-type field of every description. -/
def TypeDescription.tag : TypeDescription → String
  | .error _ _ => "error"
  | .boolean _ => "boolean"
  | .number _ _ _ => "number"
  | .string _ _ => "string"
  | .date => "date"
  | .time => "time"
  | .datetime => "datetime"
  | .array _ _ _ => "array"
  | .record _ => "record"
  | .user _ => "user"
  | .unknown => "unknown"

def isErrorType (t : TypeDescription) : Bool := t.tag == "error"

def isBooleanType (t : TypeDescription) : Bool := t.tag == "boolean"

def isNumberType (t : TypeDescription) : Bool := t.tag == "number"

def isStringType (t : TypeDescription) : Bool := t.tag == "string"

def isDateType (t : TypeDescription) : Bool := t.tag == "date"

def isTimeType (t : TypeDescription) : Bool := t.tag == "time"

def isDateTimeType (t : TypeDescription) : Bool := t.tag == "datetime"

def isArrayTypeDesc (t : TypeDescription) : Bool := t.tag == "array"

def isRecordTypeDesc (t : TypeDescription) : Bool := t.tag == "record"

def isUserTypeDesc (t : TypeDescription) : Bool := t.tag == "user"

def isUnknownType (t : TypeDescription) : Bool := t.tag == "unknown"

mutual

/-- isAssignable from infer.ts: checks whether a value of the second type can
be assigned to a target of the first type. -/
def isAssignable (typeA typeB : TypeDescription) : Bool :=
  if isErrorType typeA || isErrorType typeB then true
  else if typeA.tag == typeB.tag then
    match typeA, typeB with
    | .array ea _ _, .array eb _ _ => isAssignable ea eb
    | .user ba, .user bb => isAssignable ba bb
    | .record fa, .record fb => recordFieldsAssignable fa fb
    | _, _ => true
  else if isNumberType typeA && isNumberType typeB then true
  else if isStringType typeA then isStringType typeB
  else if isDateType typeA && isDateType typeB then true
  else if isTimeType typeA && isTimeType typeB then true
  else if isDateTimeType typeA && isDateTimeType typeB then true
  else false
termination_by sizeOf typeA

/-- The record branch of isAssignable: every field of the target must have a
same-named field of assignable type in the source. -/
def recordFieldsAssignable (fa fb : List (String × TypeDescription)) : Bool :=
  match fa with
  | [] => true
  | (fieldName, fieldType) :: rest =>
    match aget fb fieldName with
    | none => false
    | some otherFieldType =>
      isAssignable fieldType otherFieldType && recordFieldsAssignable rest fb
termination_by sizeOf fa
decreasing_by
  all_goals simp_wf
  all_goals omega

end


/-- Pairwise distinctness of a list of field names. -/
def distinctKeys : List String → Bool
  | [] => true
  | k :: rest => !rest.contains k && distinctKeys rest

mutual

/-- Well-formedness of a type description as produced by the TypeScript code:
record fields are JS Map objects, so their keys are pairwise distinct, at
every nesting level. -/
def wfType : TypeDescription → Bool
  | .array et _ _ => wfType et
  | .user bt => wfType bt
  | .record fields => distinctKeys (fields.map Prod.fst) && wfFields fields
  | _ => true

/-- All field types of a record are well formed. -/
def wfFields : List (String × TypeDescription) → Bool
  | [] => true
  | (_, t) :: rest => wfType t && wfFields rest

end


/-- The TypeReference variants of the grammar. The array variant carries its
element TypeReference directly because the grammar makes it a required
property, so the defensive missing-element branches of the source cannot
arise and are not modelled. The reference variant carries the id of the
linked Type node, or none when the reference did not resolve. -/
inductive TypeRef : Type where
  | refTr (target : Option Nat)
  | intTr
  | floatTr (precision scale : Option Nat)
  | stringTr (length : Option Nat)
  | booleanTr
  | dateTr
  | timeTr
  | datetimeTr
  | arrayTr (leftBound : Option Nat) (rightBound : Nat) (arrayType : TypeRef)
deriving Repr, DecidableEq

/-- One fields-of-type group of a Record: several field names sharing one
declared TypeReference. -/
structure RecordFieldsOfType : Type where
  fields : List String
  type : TypeRef
deriving Repr, DecidableEq

/-- A cross-reference as stored on a MemberCall element slot: the referenced
text and the id of the resolved node (none when linking failed). -/
structure RefInfo : Type where
  refText : String
  ref : Option Nat
deriving Repr, DecidableEq

/-- The AST node kinds consumed by the analysis core, as produced by the
grammar. Child nodes and resolved references are arena ids. Literal values
are omitted because no analysis rule reads them. -/
inductive Node : Type where
  | model (interfaces types statements : List Nat)
  | iface (name : String) (views types declarations : List Nat)
  | view (name : Option String) (declarations fields : List Nat)
  | varDeclaration (varsOfTypes : List Nat)
  | varsOfType (vars : List Nat) (type : TypeRef)
  | variableNode (name : String)
  | recordNode (name : String) (fieldsOfTypes : List RecordFieldsOfType)
  | userTypeNode (name : String) (type : TypeRef)
  | namedViewField (name : String) (expression : Nat)
  | unnamedViewField (expression : Nat)
  | numberLiteral
  | stringLiteral
  | booleanLiteral
  | memberCall (previous : Option Nat) (element : Option RefInfo)
      (explicitOperationCall : Bool) (arguments : List Nat)
  | unaryExpression (operator : String) (value : Nat)
  | binaryExpression (operator : String) (left right : Nat)
  | expressionStatement (expression : Nat)
  | typeRefNode (type : TypeRef)
deriving Repr, DecidableEq

/-- An arena entry: the node and the id of its container (its parent). -/
structure ArenaEntry : Type where
  node : Node
  container : Option Nat
deriving Repr, DecidableEq

/-- The arena holding a whole document tree; ids are list positions. -/
structure Arena : Type where
  nodes : List ArenaEntry
deriving Repr, DecidableEq

def Arena.get (a : Arena) (i : Nat) : Option ArenaEntry := a.nodes[i]?

def Arena.size (a : Arena) : Nat := a.nodes.length

def isViewNode : Node → Bool
  | .view _ _ _ => true
  | _ => false

def isInterfaceNode : Node → Bool
  | .iface _ _ _ _ => true
  | _ => false

def isVariableNode : Node → Bool
  | .variableNode _ => true
  | _ => false

def isVarsOfTypeNode : Node → Bool
  | .varsOfType _ _ => true
  | _ => false

def isRecordNode : Node → Bool
  | .recordNode _ _ => true
  | _ => false

def isUserTypeNode : Node → Bool
  | .userTypeNode _ _ => true
  | _ => false

/-- The NamedElement rule of the grammar: View, NamedViewField, Variable or
Type (Record or UserType). -/
def isNamedElementNode : Node → Bool
  | .view _ _ _ => true
  | .namedViewField _ _ => true
  | .variableNode _ => true
  | .recordNode _ _ => true
  | .userTypeNode _ _ => true
  | _ => false

/-- The recursion of grammarTypeToTypeDescription on a present TypeReference,
from descriptions.ts: primitives map to their descriptions, the array variant
recurses on its element type, and a reference to a defined Type (Record or
UserType, or an unresolved reference) yields the unknown description in every
case, because record and user type resolution are unimplemented there. -/
def typeRefDescription (a : Arena) : TypeRef → TypeDescription
  | .booleanTr => .boolean none
  | .intTr => .number none none none
  | .floatTr precision scale => .number none precision scale
  | .stringTr length => .string none length
  | .dateTr => .date
  | .timeTr => .time
  | .datetimeTr => .datetime
  | .arrayTr leftBound rightBound elemRef =>
    .array (typeRefDescription a elemRef) rightBound leftBound
  | .refTr target =>
    match target with
    | some tid =>
      match a.get tid with
      | some e =>
        if isRecordNode e.node then .unknown
        else if isUserTypeNode e.node then .unknown
        else .unknown
      | none => .unknown
    | none => .unknown

/-- grammarTypeToTypeDescription from descriptions.ts: an absent TypeReference
yields unknown, a present one is described by typeRefDescription. -/
def grammarTypeToTypeDescription (a : Arena) : Option TypeRef → TypeDescription
  | none => .unknown
  | some tr => typeRefDescription a tr

/-- The memo table of one analysis pass: node id to computed description. -/
def Cache : Type := List (Nat × TypeDescription)

/-- inferVariableType from infer.ts. A node that is not a Variable or has no
container is rejected; otherwise, when the container is a VarsOfType, the
declared TypeReference of that group is described. The source also receives
the cache but never reads it, so the embedding drops that parameter. -/
def inferVariableType (a : Arena) (n : Nat) : TypeDescription :=
  match a.get n with
  | some e =>
    if isVariableNode e.node then
      match e.container with
      | some ci =>
        match a.get ci with
        | some ce =>
          match ce.node with
          | .varsOfType _ tr => grammarTypeToTypeDescription a (some tr)
          | _ => .error "Could not determine variable type" (some n)
        | none => .error "Could not determine variable type" (some n)
      | none => .error "Not a valid variable" (some n)
    else .error "Not a valid variable" (some n)
  | none => .error "Not a valid variable" (some n)

/-- One fields-of-type group written into the record field map: every field
name of the group is bound to the described group type, later groups
overwriting earlier same-named fields. -/
def addFieldsOfType (names : List String) (fieldType : TypeDescription)
    (m : List (String × TypeDescription)) : List (String × TypeDescription) :=
  names.foldl (fun acc nm => aset acc nm fieldType) m

/-- inferRecordType from infer.ts: the union over all field groups of the
bindings from field name to the declared group type; like the source, the
cache parameter is unused and dropped. -/
def inferRecordType (a : Arena) (n : Nat) : TypeDescription :=
  match a.get n with
  | some e =>
    match e.node with
    | .recordNode _ fieldsOfTypes =>
      .record (fieldsOfTypes.foldl
        (fun m ft => addFieldsOfType ft.fields (grammarTypeToTypeDescription a (some ft.type)) m) [])
    | _ => .error "Not a valid record" (some n)
  | none => .error "Not a valid record" (some n)

/-- inferUserType from infer.ts: describe the aliased TypeReference; an error
or unknown base makes the user type an error naming the alias. -/
def inferUserType (a : Arena) (n : Nat) : TypeDescription :=
  match a.get n with
  | some e =>
    match e.node with
    | .userTypeNode name tr =>
      let baseType := grammarTypeToTypeDescription a (some tr)
      if isErrorType baseType || isUnknownType baseType then
        .error ("Invalid base type for user type '" ++ name ++ "'") (some n)
      else .user baseType
    | _ => .error "Not a valid user type" (some n)
  | none => .error "Not a valid user type" (some n)

/-- The container walk of inferSelfReference: starting at the node itself,
follow container links until a View or Interface is reached. The fuel bounds
the walk; one step per arena node is always enough for the acyclic container
chains produced by parsing. -/
def findViewOrInterface (a : Arena) : Nat → Option Nat → Option Nat
  | 0, _ => none
  | _, none => none
  | fuel + 1, some i =>
    match a.get i with
    | none => none
    | some e =>
      if isViewNode e.node || isInterfaceNode e.node then some i
      else findViewOrInterface a fuel e.container

/-- inferViewType from infer.ts: full row-type synthesis is unimplemented and
every View is described as unknown. -/
def inferViewType : TypeDescription := .unknown

/-- inferInterfaceType from infer.ts: likewise always unknown. -/
def inferInterfaceType : TypeDescription := .unknown

/-- inferSelfReference from infer.ts: find the containing View or Interface
and describe it; outside both, an error. -/
def inferSelfReference (a : Arena) (n : Nat) : TypeDescription :=
  match findViewOrInterface a (a.size + 1) (some n) with
  | some i =>
    match a.get i with
    | some e =>
      if isViewNode e.node then inferViewType
      else inferInterfaceType
    | none => .error "Self reference outside of view or interface" (some n)
  | none => .error "Self reference outside of view or interface" (some n)

/-- inferPropertyAccess from infer.ts: plain property access on a receiver
type. Arrays expose only the synthetic length property; records expose their
fields; user types delegate to a record base type; everything else rejects
member access. -/
def inferPropertyAccess (n : Nat) (element : Option RefInfo)
    (receiverType : TypeDescription) : TypeDescription :=
  match element with
  | none => .error "Missing property name" (some n)
  | some el =>
    let propertyName := el.refText
    match receiverType with
    | .array _ _ _ =>
      if propertyName = "length" then .number none none none
      else .error ("Property '" ++ propertyName ++ "' not found on array type") (some n)
    | .record fields =>
      match aget fields propertyName with
      | some fieldType => fieldType
      | none => .error ("Field '" ++ propertyName ++ "' not found in record") (some n)
    | .user baseType =>
      match baseType with
      | .record fields =>
        match aget fields propertyName with
        | some fieldType => fieldType
        | none => .error ("Field '" ++ propertyName ++ "' not found in user type") (some n)
      | _ => .error "User type does not support member access for non-record base types" (some n)
    | _ => .error ("Type '" ++ receiverType.tag ++ "' does not support property access") (some n)

/-- The type of the recursive entry point threaded through the helpers below:
the helpers of infer.ts call back into inferType, which appears here as an
explicit parameter so that each helper mirrors its source function. -/
def Recur : Type := Cache → Option Nat → Option (TypeDescription × Cache)

/-- inferNamedElementReference from infer.ts: a Variable is typed by its
declaration group, a Record or UserType by its own inferred description, and
any other named element (a View or a NamedViewField) by generic inference. -/
def inferNamedElementReference (a : Arena) (recur : Recur) (c : Cache)
    (elemId : Nat) : Option (TypeDescription × Cache) :=
  match a.get elemId with
  | some e =>
    if isVariableNode e.node then some (inferVariableType a elemId, c)
    else if isRecordNode e.node then some (inferRecordType a elemId, c)
    else if isUserTypeNode e.node then some (inferUserType a elemId, c)
    else recur c (some elemId)
  | none => recur c (some elemId)

/-- inferExplicitOperationCall from infer.ts: an array receiver called with
exactly one argument is array indexing (the index must be a number and the
result is the element type); every other call shape is the unimplemented
function-call case. -/
def inferExplicitOperationCall (recur : Recur) (c : Cache)
    (n : Nat) (args : List Nat) (receiverType : TypeDescription) :
    Option (TypeDescription × Cache) :=
  match receiverType, args with
  | .array elementType _ _, [arg] =>
    match recur c (some arg) with
    | none => none
    | some (indexType, c') =>
      if isNumberType indexType then some (elementType, c')
      else some (.error "Array index must be a number" (some n), c')
  | _, _ => some (.error "Function call type inference not implemented" (some n), c)

/-- The isNamedElement check of infer.ts applied to the resolved target of a
reference: false when the reference is unresolved (the source applies the
type guard to an undefined value there). -/
def isNamedElementAt (a : Arena) : Option Nat → Bool
  | none => false
  | some i =>
    match a.get i with
    | some e => isNamedElementNode e.node
    | none => false

/-- inferMemberCallType from infer.ts: a call with no previous expression is a
bare reference (self, a resolved named element, or an unknown reference); a
call with a receiver first infers the receiver and propagates its errors,
then dispatches to the explicit-call or property-access helper. -/
def inferMemberCallType (a : Arena) (recur : Recur) (c : Cache)
    (previous : Option Nat) (element : Option RefInfo)
    (explicitOperationCall : Bool) (args : List Nat) (n : Nat) :
    Option (TypeDescription × Cache) :=
  match previous with
  | none =>
    match element with
    | none => some (.error "Missing element reference" (some n), c)
    | some el =>
      if el.refText = "self" then some (inferSelfReference a n, c)
      else
        match el.ref with
        | some elemId =>
          if isNamedElementAt a (some elemId) then inferNamedElementReference a recur c elemId
          else some (.error ("Unknown reference '" ++ el.refText ++ "'") (some n), c)
        | none => some (.error ("Unknown reference '" ++ el.refText ++ "'") (some n), c)
  | some p =>
    match recur c (some p) with
    | none => none
    | some (receiverType, c1) =>
      if isErrorType receiverType then some (receiverType, c1)
      else if explicitOperationCall then
        inferExplicitOperationCall recur c1 n args receiverType
      else
        match element with
        | some el => some (inferPropertyAccess n (some el) receiverType, c1)
        | none => some (.error "Invalid member call" (some n), c1)

/-- inferUnaryExpressionType from infer.ts. -/
def inferUnaryExpressionType (recur : Recur) (c : Cache)
    (operator : String) (value : Nat) (n : Nat) :
    Option (TypeDescription × Cache) :=
  match recur c (some value) with
  | none => none
  | some (valueType, c') =>
    if isErrorType valueType then some (valueType, c')
    else if operator = "-" then
      if isNumberType valueType then some (valueType, c')
      else some (.error "Unary minus requires numeric type" (some n), c')
    else if operator = "+" then
      if isNumberType valueType then some (valueType, c')
      else some (.error "Unary plus requires numeric type" (some n), c')
    else if operator = "not" then
      if isBooleanType valueType then some (valueType, c')
      else some (.error "Logical not requires boolean type" (some n), c')
    else some (.error "Unknown unary operator" (some n), c')

/-- inferBinaryExpressionType from infer.ts: infer both operands (threading
the cache), propagate operand errors, then apply the comparison, logical or
arithmetic rule selected by the operator. -/
def inferBinaryExpressionType (recur : Recur) (c : Cache)
    (operator : String) (left right : Nat) (n : Nat) :
    Option (TypeDescription × Cache) :=
  match recur c (some left) with
  | none => none
  | some (leftType, c1) =>
    match recur c1 (some right) with
    | none => none
    | some (rightType, c2) =>
      if isErrorType leftType || isErrorType rightType then
        some (.error "Error in operand types" (some n), c2)
      else if ["=", "!=", "<>", ">", "<", ">=", "<="].contains operator then
        let isComparison :=
          (isNumberType leftType && isNumberType rightType) ||
          (isStringType leftType && isStringType rightType) ||
          (isDateType leftType && isDateType rightType) ||
          (isTimeType leftType && isTimeType rightType) ||
          (isDateTimeType leftType && isDateTimeType rightType) ||
          (operator = "=" && isBooleanType leftType && isBooleanType rightType)
        if isComparison then some (.boolean none, c2)
        else some (.error "Incompatible types for comparison" (some n), c2)
      else if ["and", "or"].contains operator then
        if isBooleanType leftType && isBooleanType rightType then some (.boolean none, c2)
        else some (.error "Logical operators require boolean operands" (some n), c2)
      else if ["+", "-", "*", "/", "^", "mod", "div"].contains operator then
        if operator = "+" && (isStringType leftType || isStringType rightType) then
          let otherType := if isStringType leftType then rightType else leftType
          if isStringType otherType || isNumberType otherType || isBooleanType otherType then
            some (.string none none, c2)
          else some (.error "Cannot concatenate with string" (some n), c2)
        else if isNumberType leftType && isNumberType rightType then
          some (.number none none none, c2)
        else some (.error "Arithmetic operators require numeric operands" (some n), c2)
      else some (.error "Unknown operator" (some n), c2)

/-- The node-kind dispatch of inferType from infer.ts: the chain of type
guards selecting the per-kind inference rule, applied after the sentinel has
been stored. The final catch-all covers the nodes that carry a single inner
expression (the duck-typed expression-property check of the source matches
exactly ExpressionStatement, NamedViewField and UnnamedViewField here) and
the could-not-infer fallback. -/
def inferTypeDispatch (a : Arena) (recur : Recur) (c1 : Cache) (n : Nat) :
    Node → Option (TypeDescription × Cache)
  | .stringLiteral => some (.string (some n) none, c1)
  | .booleanLiteral => some (.boolean (some n), c1)
  | .numberLiteral => some (.number (some n) none none, c1)
  | .typeRefNode (.arrayTr leftBound rightBound elemRef) =>
    some (.array (grammarTypeToTypeDescription a (some elemRef)) rightBound leftBound, c1)
  | .variableNode _ => some (inferVariableType a n, c1)
  | .recordNode _ _ => some (inferRecordType a n, c1)
  | .userTypeNode _ _ => some (inferUserType a n, c1)
  | .memberCall previous element explicitOperationCall args =>
    inferMemberCallType a recur c1 previous element explicitOperationCall args n
  | .unaryExpression operator value =>
    inferUnaryExpressionType recur c1 operator value n
  | .binaryExpression operator left right =>
    inferBinaryExpressionType recur c1 operator left right n
  | .expressionStatement expression => recur c1 (some expression)
  | .namedViewField _ expression => recur c1 (some expression)
  | .unnamedViewField expression => recur c1 (some expression)
  | _ => some (.error "Could not infer type" (some n), c1)

/-- inferType from infer.ts, the memoized entry point. An undefined node is
an error; a memoized node returns its memo entry unchanged; otherwise the
sentinel error is stored before dispatching on the node kind, and the final
result replaces the sentinel. The fuel bounds the nesting of inferType
calls and only decreases at this entry point; the totality theorem below
shows that one unit per not-yet-memoized node is always enough. An id that
is not in the arena cannot arise from a real tree and is answered like an
undefined node, without touching the cache. -/
def inferType : Nat → Arena → Cache → Option Nat → Option (TypeDescription × Cache)
  | 0, _, _, _ => none
  | _ + 1, _, c, none => some (.error "Could not infer type for undefined" none, c)
  | fuel + 1, a, c, some n =>
    match aget c n with
    | some existing => some (existing, c)
    | none =>
      match a.get n with
      | none => some (.error "Could not infer type for undefined" none, c)
      | some e =>
        let c1 := aset c n (.error "Recursive definition" (some n))
        match inferTypeDispatch a (inferType fuel a) c1 n e.node with
        | none => none
        | some (t, c2) => some (t, aset c2 n t)

/-- The container walk of AstUtils.getContainerOfType with the isInterface
predicate, as used by getVariableScope: the node itself counts when it is an
Interface. One fuel unit per arena node covers every acyclic container
chain. -/
def findInterfaceContainer (a : Arena) : Nat → Option Nat → Option Nat
  | 0, _ => none
  | _, none => none
  | fuel + 1, some i =>
    match a.get i with
    | none => none
    | some e =>
      if isInterfaceNode e.node then some i
      else findInterfaceContainer a fuel e.container

/-- The (name, node id) scope entries contributed by one VarsOfType group:
one entry per declared variable. -/
def varsOfTypeEntries (a : Arena) (votId : Nat) : List (String × Nat) :=
  match a.get votId with
  | some e =>
    match e.node with
    | .varsOfType vars _ =>
      vars.filterMap (fun vid =>
        match a.get vid with
        | some ve =>
          match ve.node with
          | .variableNode nm => some (nm, vid)
          | _ => none
        | none => none)
    | _ => []
  | none => []

/-- The scope entries of one VarDeclaration group, in declaration order. -/
def declarationEntries (a : Arena) (declId : Nat) : List (String × Nat) :=
  match a.get declId with
  | some e =>
    match e.node with
    | .varDeclaration vots => vots.flatMap (varsOfTypeEntries a)
    | _ => []
  | none => []

/-- The named-field scope entries of a list of view fields: one entry per
NamedViewField, bound to the field node itself. -/
def namedFieldEntries (a : Arena) (fieldIds : List Nat) : List (String × Nat) :=
  fieldIds.filterMap (fun fid =>
    match a.get fid with
    | some fe =>
      match fe.node with
      | .namedViewField nm _ => some (nm, fid)
      | _ => none
    | none => none)

/-- Everything one view writes into the variable scope, in source order: its
declared variables first, then its named fields. The scope provider reads
the view-local variable groups through the property names of an earlier
generation of the generated AST (view.vars with varsDecl.names, and the
field kind tag NamedField); they denote the view-local variable groups and
named view fields of the current grammar embedded here. -/
def viewScopeEntries (a : Arena) (viewId : Nat) : List (String × Nat) :=
  match a.get viewId with
  | some e =>
    match e.node with
    | .view _ decls fields =>
      decls.flatMap (declarationEntries a) ++ namedFieldEntries a fields
    | _ => []
  | none => []

/-- getVariableScope of AtlantisVipScopeProvider: find the enclosing
Interface of the reference site, then write, for each of its views in order,
the view's variables and named fields into one map, later entries
overwriting earlier same-named ones. The source asserts the interface exists
(a non-null assertion); a site with no enclosing Interface yields none. -/
def getVariableScope (a : Arena) (site : Nat) : Option (List (String × Nat)) :=
  match findInterfaceContainer a (a.size + 1) (some site) with
  | none => none
  | some ifaceId =>
    match a.get ifaceId with
    | some e =>
      match e.node with
      | .iface _ views _ _ =>
        some (views.foldl
          (fun m vId => (viewScopeEntries a vId).foldl (fun m p => aset m p.1 p.2) m) [])
      | _ => none
    | none => none

/-- The container walk up to the Model root. -/
def findModelContainer (a : Arena) : Nat → Option Nat → Option Nat
  | 0, _ => none
  | _, none => none
  | fuel + 1, some i =>
    match a.get i with
    | none => none
    | some e =>
      match e.node with
      | .model _ _ _ => some i
      | _ => findModelContainer a fuel e.container

/-- The container walk up to the nearest enclosing View (stopping before the
Interface, since Views never contain Interfaces). -/
def findViewContainer (a : Arena) : Nat → Option Nat → Option Nat
  | 0, _ => none
  | _, none => none
  | fuel + 1, some i =>
    match a.get i with
    | none => none
    | some e =>
      if isViewNode e.node then some i
      else if isInterfaceNode e.node then none
      else findViewContainer a fuel e.container

/-- A scope entry for a Type definition: its name bound to the Type node. -/
def typeEntry (a : Arena) (tid : Nat) : Option (String × Nat) :=
  match a.get tid with
  | some e =>
    match e.node with
    | .recordNode nm _ => some (nm, tid)
    | .userTypeNode nm _ => some (nm, tid)
    | _ => none
  | none => none

/-- Modelled from the spec: the six-step visible-name table that section 4.1
of the specification (and claim C1) ascribes to the scope resolver for a
variable reference site - interface-level declared variables, then view-local
declared variables, then top-level Model variable statements, then every
NamedViewField of every View of every Interface, then the identifier self
bound to the nearest View else the Interface, then every visible Type name;
later steps overwrite same-named earlier entries. This definition follows
the words of the spec and exists only to be compared against
getVariableScope, which is embedded from the source. -/
def getVariableScopeSpec (a : Arena) (site : Nat) : Option (List (String × Nat)) :=
  match findInterfaceContainer a (a.size + 1) (some site),
        findModelContainer a (a.size + 1) (some site) with
  | some ifaceId, some modelId =>
    match a.get ifaceId, a.get modelId with
    | some ie, some me =>
      match ie.node, me.node with
      | .iface _ _ ifaceTypes ifaceDecls, .model modelIfaces modelTypes modelStmts =>
        let viewOpt := findViewContainer a (a.size + 1) (some site)
        let step1 := ifaceDecls.flatMap (declarationEntries a)
        let step2 :=
          match viewOpt with
          | some vId =>
            match a.get vId with
            | some ve =>
              match ve.node with
              | .view _ decls _ => decls.flatMap (declarationEntries a)
              | _ => []
            | none => []
          | none => []
        let step3 := modelStmts.flatMap (declarationEntries a)
        let step4 := modelIfaces.flatMap (fun iId =>
          match a.get iId with
          | some ie2 =>
            match ie2.node with
            | .iface _ views _ _ => views.flatMap (fun vId =>
              match a.get vId with
              | some ve =>
                match ve.node with
                | .view _ _ fields => namedFieldEntries a fields
                | _ => []
              | none => [])
            | _ => []
          | none => [])
        let step5 := [("self", viewOpt.getD ifaceId)]
        let step6 := (modelTypes ++ modelIfaces.flatMap (fun iId =>
          match a.get iId with
          | some ie2 =>
            match ie2.node with
            | .iface _ _ types _ => types
            | _ => []
          | none => []) ++ ifaceTypes).filterMap (typeEntry a)
        some ((step1 ++ step2 ++ step3 ++ step4 ++ step5 ++ step6).foldl
          (fun m p => aset m p.1 p.2) [])
      | _, _ => none
    | _, _ => none
  | _, _ => none

/-- The length of the container chain from a node up to the root, counting
the node itself; the depth of a tree is the maximum over its nodes. -/
def containerDepth (a : Arena) : Nat → Nat → Nat
  | 0, _ => 0
  | fuel + 1, i =>
    match a.get i with
    | none => 0
    | some e =>
      match e.container with
      | none => 1
      | some p => containerDepth a fuel p + 1

/-- The depth of the tree held in an arena: the longest container chain. -/
def treeDepth (a : Arena) : Nat :=
  ((List.range a.size).map (containerDepth a a.size)).foldl Nat.max 0

/-- The number of arena ids below the bound that have no cache entry. -/
def uncachedBelow (a : Arena) (c : Cache) : Nat → Nat
  | 0 => 0
  | i + 1 => uncachedBelow a c i + (if (aget c i).isNone then 1 else 0)

/-- The number of arena nodes not yet memoized; the recursion measure of the
inference engine. -/
def uncachedCount (a : Arena) (c : Cache) : Nat := uncachedBelow a c a.size

/-- Cache growth: every key present in the first cache is present in the
second; the engine only ever adds or replaces entries. -/
def keysSub (c c' : Cache) : Prop :=
  ∀ k, (aget c k).isSome = true → (aget c' k).isSome = true

/-- The recursive entry point only grows the cache. -/
def RecurMono (recur : Recur) : Prop :=
  ∀ c n t c', recur c n = some (t, c') → keysSub c c'

/-- The recursive entry point answers every query below a bound on the
number of unmemoized nodes. -/
def RecurTotal (a : Arena) (recur : Recur) (bound : Nat) : Prop :=
  ∀ c nopt, uncachedCount a c < bound → (recur c nopt).isSome = true

/-- The comparison operators of the language. -/
def comparisonOperators : List String := ["=", "!=", "<>", ">", "<", ">=", "<="]

/-- The operand kinds that compare against themselves under every comparison
operator. -/
def comparableKinds : List String := ["number", "string", "date", "time", "datetime"]

def cmpWitnessArena : Arena :=
  ⟨[⟨.binaryExpression "<" 1 2, none⟩, ⟨.numberLiteral, some 0⟩, ⟨.numberLiteral, some 0⟩]⟩

def concatWitnessArena : Arena :=
  ⟨[⟨.binaryExpression "+" 1 2, none⟩, ⟨.numberLiteral, some 0⟩, ⟨.stringLiteral, some 0⟩]⟩

def arrWitnessArena : Arena :=
  ⟨[⟨.memberCall (some 1) none true [2], none⟩,
    ⟨.typeRefNode (.arrayTr (some 1) 10 .intTr), some 0⟩,
    ⟨.numberLiteral, some 0⟩]⟩

def selfWitnessArena : Arena :=
  ⟨[⟨.model [1] [] [], none⟩,
    ⟨.iface "I" [2] [] [], some 0⟩,
    ⟨.view none [] [4], some 1⟩,
    ⟨.memberCall none (some ⟨"self", none⟩) false [], some 4⟩,
    ⟨.unnamedViewField 3, some 2⟩]⟩

def namedRefWitnessArena : Arena :=
  ⟨[⟨.recordNode "R" [], none⟩,
    ⟨.varsOfType [2] (.refTr (some 0)), none⟩,
    ⟨.variableNode "x", some 1⟩,
    ⟨.userTypeNode "U" (.refTr (some 0)), none⟩]⟩

def cycleWitnessArena : Arena :=
  ⟨[⟨.namedViewField "x" 1, none⟩,
    ⟨.memberCall none (some ⟨"x", some 0⟩) false [], some 0⟩]⟩

/-- A model with one view of ten named fields, each referencing the next by
name, the last reference unresolved: tree depth five, but inference from the
first field chains through all twenty field and expression nodes. -/
def chainWitnessArena : Arena :=
  ⟨[⟨.model [1] [] [], none⟩,
    ⟨.iface "I" [2] [] [], some 0⟩,
    ⟨.view none [] [3, 4, 5, 6, 7, 8, 9, 10, 11, 12], some 1⟩,
    ⟨.namedViewField "x0" 13, some 2⟩,
    ⟨.namedViewField "x1" 14, some 2⟩,
    ⟨.namedViewField "x2" 15, some 2⟩,
    ⟨.namedViewField "x3" 16, some 2⟩,
    ⟨.namedViewField "x4" 17, some 2⟩,
    ⟨.namedViewField "x5" 18, some 2⟩,
    ⟨.namedViewField "x6" 19, some 2⟩,
    ⟨.namedViewField "x7" 20, some 2⟩,
    ⟨.namedViewField "x8" 21, some 2⟩,
    ⟨.namedViewField "x9" 22, some 2⟩,
    ⟨.memberCall none (some ⟨"x1", some 4⟩) false [], some 3⟩,
    ⟨.memberCall none (some ⟨"x2", some 5⟩) false [], some 4⟩,
    ⟨.memberCall none (some ⟨"x3", some 6⟩) false [], some 5⟩,
    ⟨.memberCall none (some ⟨"x4", some 7⟩) false [], some 6⟩,
    ⟨.memberCall none (some ⟨"x5", some 8⟩) false [], some 7⟩,
    ⟨.memberCall none (some ⟨"x6", some 9⟩) false [], some 8⟩,
    ⟨.memberCall none (some ⟨"x7", some 10⟩) false [], some 9⟩,
    ⟨.memberCall none (some ⟨"x8", some 11⟩) false [], some 10⟩,
    ⟨.memberCall none (some ⟨"x9", some 12⟩) false [], some 11⟩,
    ⟨.memberCall none (some ⟨"z", none⟩) false [], some 12⟩]⟩

def scopeWitnessArena : Arena :=
  ⟨[⟨.model [1] [] [], none⟩,
    ⟨.iface "I" [2, 3] [] [], some 0⟩,
    ⟨.view (some "V1") [4] [7], some 1⟩,
    ⟨.view (some "V2") [] [8], some 1⟩,
    ⟨.varDeclaration [5], some 2⟩,
    ⟨.varsOfType [6] .intTr, some 4⟩,
    ⟨.variableNode "x", some 5⟩,
    ⟨.namedViewField "y" 9, some 2⟩,
    ⟨.namedViewField "x" 10, some 3⟩,
    ⟨.numberLiteral, some 7⟩,
    ⟨.numberLiteral, some 8⟩]⟩

theorem aget_aset_self {α β : Type} [DecidableEq α] (l : List (α × β)) (k : α) (v : β) :
    aget (aset l k v) k = some v := by
  induction l with
  | nil => simp [aset, aget]
  | cons hd tl ih =>
    obtain ⟨k', v'⟩ := hd
    by_cases hk : k' = k
    · simp [aset, hk, aget]
    · simp [aset, hk, aget, ih]

theorem aget_aset_ne {α β : Type} [DecidableEq α] (l : List (α × β)) (k k' : α) (v : β)
    (h : k ≠ k') : aget (aset l k v) k' = aget l k' := by
  induction l with
  | nil => simp [aset, aget, h]
  | cons hd tl ih =>
    obtain ⟨k0, v0⟩ := hd
    by_cases hk : k0 = k
    · subst hk
      simp [aset, aget, h]
    · simp [aset, hk, aget, ih]

theorem keysSub_refl (c : Cache) : keysSub c c := fun _ h => h

theorem keysSub_trans {c1 c2 c3 : Cache} (h1 : keysSub c1 c2) (h2 : keysSub c2 c3) :
    keysSub c1 c3 := fun k h => h2 k (h1 k h)

theorem keysSub_aset (c : Cache) (k : Nat) (v : TypeDescription) :
    keysSub c (aset c k v) := by
  intro k0 h
  by_cases hk : k = k0
  · subst hk
    simp [aget_aset_self]
  · rw [aget_aset_ne _ _ _ _ hk]
    exact h

theorem uncachedBelow_mono (a : Arena) {c c' : Cache} (h : keysSub c c') (m : Nat) :
    uncachedBelow a c' m ≤ uncachedBelow a c m := by
  induction m with
  | zero => simp [uncachedBelow]
  | succ i ih =>
    simp only [uncachedBelow]
    have hstep : (if (aget c' i).isNone then 1 else 0) ≤ (if (aget c i).isNone then 1 else 0) := by
      by_cases hc : (aget c i).isNone
      · simp only [hc, if_true]
        split <;> omega
      · have : (aget c i).isSome = true := by
          cases hg : aget c i with
          | none => simp [hg] at hc
          | some _ => simp
        have := h i this
        have hc' : (aget c' i).isNone = false := by
          cases hg : aget c' i with
          | none => simp [hg] at this
          | some _ => simp
        simp [hc', hc]
    omega

theorem uncachedCount_mono (a : Arena) {c c' : Cache} (h : keysSub c c') :
    uncachedCount a c' ≤ uncachedCount a c :=
  uncachedBelow_mono a h a.size

theorem uncachedBelow_aset_lt (a : Arena) (c : Cache) (n : Nat) (v : TypeDescription)
    (hn : aget c n = none) :
    ∀ m, n < m → uncachedBelow a (aset c n v) m + 1 ≤ uncachedBelow a c m := by
  intro m
  induction m with
  | zero => omega
  | succ i ih =>
    intro hlt
    simp only [uncachedBelow]
    by_cases hni : n = i
    · subst hni
      have h1 : (aget (aset c n v) n).isNone = false := by simp [aget_aset_self]
      have h2 : (aget c n).isNone = true := by simp [hn]
      have := uncachedBelow_mono a (keysSub_aset c n v) n
      simp [h1, h2]
      omega
    · have hlt' : n < i := by omega
      have := ih hlt'
      rw [aget_aset_ne _ _ _ _ hni]
      omega

theorem uncachedCount_aset_lt (a : Arena) (c : Cache) (n : Nat) (v : TypeDescription)
    (hn : aget c n = none) (hsize : n < a.size) :
    uncachedCount a (aset c n v) < uncachedCount a c := by
  have := uncachedBelow_aset_lt a c n v hn a.size hsize
  simp only [uncachedCount]
  omega

theorem inferNamedElementReference_keysSub {a : Arena} {recur : Recur}
    (hrec : RecurMono recur) {c : Cache} {e : Nat} {t : TypeDescription} {c' : Cache}
    (h : inferNamedElementReference a recur c e = some (t, c')) : keysSub c c' := by
  unfold inferNamedElementReference at h
  split at h
  · split at h
    · cases h; exact keysSub_refl _
    · split at h
      · cases h; exact keysSub_refl _
      · split at h
        · cases h; exact keysSub_refl _
        · exact hrec _ _ _ _ h
  · exact hrec _ _ _ _ h

theorem inferExplicitOperationCall_keysSub {recur : Recur}
    (hrec : RecurMono recur) {c : Cache} {n : Nat} {args : List Nat}
    {rt t : TypeDescription} {c' : Cache}
    (h : inferExplicitOperationCall recur c n args rt = some (t, c')) : keysSub c c' := by
  unfold inferExplicitOperationCall at h
  split at h
  · split at h
    · simp at h
    · rename_i it c2 h1
      have hsub := hrec _ _ _ _ h1
      have hc : c' = c2 := by split at h <;> simp_all
      subst hc
      exact hsub
  · cases h
    exact keysSub_refl _

theorem inferUnaryExpressionType_keysSub {recur : Recur}
    (hrec : RecurMono recur) {c : Cache} {op : String} {value n : Nat}
    {t : TypeDescription} {c' : Cache}
    (h : inferUnaryExpressionType recur c op value n = some (t, c')) : keysSub c c' := by
  unfold inferUnaryExpressionType at h
  split at h
  · simp at h
  · rename_i vt c2 h1
    have hsub := hrec _ _ _ _ h1
    have hc : c' = c2 := by
      repeat' split at h
      all_goals simp_all
    subst hc
    exact hsub

theorem inferBinaryExpressionType_keysSub {recur : Recur}
    (hrec : RecurMono recur) {c : Cache} {op : String} {left right n : Nat}
    {t : TypeDescription} {c' : Cache}
    (h : inferBinaryExpressionType recur c op left right n = some (t, c')) : keysSub c c' := by
  unfold inferBinaryExpressionType at h
  split at h
  · simp at h
  · rename_i lt c1 h1
    split at h
    · simp at h
    · rename_i rt2 c2 h2
      have hsub := keysSub_trans (hrec _ _ _ _ h1) (hrec _ _ _ _ h2)
      have hc : c' = c2 := by
        simp only [] at h
        repeat' split at h
        all_goals simp_all
      subst hc
      exact hsub

theorem inferMemberCallType_keysSub {a : Arena} {recur : Recur}
    (hrec : RecurMono recur) {c : Cache} {previous : Option Nat}
    {element : Option RefInfo} {eoc : Bool} {args : List Nat} {n : Nat}
    {t : TypeDescription} {c' : Cache}
    (h : inferMemberCallType a recur c previous element eoc args n = some (t, c')) :
    keysSub c c' := by
  unfold inferMemberCallType at h
  split at h
  · split at h
    · cases h; exact keysSub_refl _
    · split at h
      · cases h; exact keysSub_refl _
      · split at h
        · split at h
          · exact inferNamedElementReference_keysSub hrec h
          · cases h; exact keysSub_refl _
        · cases h; exact keysSub_refl _
  · split at h
    · simp at h
    · rename_i recvT c1 h1
      have hsub1 := hrec _ _ _ _ h1
      split at h
      · cases h; exact hsub1
      · split at h
        · exact keysSub_trans hsub1 (inferExplicitOperationCall_keysSub hrec h)
        · split at h
          · cases h; exact hsub1
          · cases h; exact hsub1

theorem inferTypeDispatch_keysSub {a : Arena} {recur : Recur}
    (hrec : RecurMono recur) {c : Cache} {n : Nat} {node : Node}
    {t : TypeDescription} {c' : Cache}
    (h : inferTypeDispatch a recur c n node = some (t, c')) : keysSub c c' := by
  unfold inferTypeDispatch at h
  split at h
  all_goals first
  | (cases h; exact keysSub_refl _)
  | exact inferMemberCallType_keysSub hrec h
  | exact inferUnaryExpressionType_keysSub hrec h
  | exact inferBinaryExpressionType_keysSub hrec h
  | exact hrec _ _ _ _ h

/-- Inference only grows the memo table: every key cached before a call to
inferType is still cached afterwards. -/
theorem inferType_keysSub : ∀ (fuel : Nat) (a : Arena) (c : Cache) (nopt : Option Nat)
    (t : TypeDescription) (c' : Cache),
    inferType fuel a c nopt = some (t, c') → keysSub c c' := by
  intro fuel
  induction fuel with
  | zero => intro a c nopt t c' h; simp [inferType] at h
  | succ f ih =>
    intro a c nopt t c' h
    unfold inferType at h
    match nopt with
    | none => cases h; exact keysSub_refl _
    | some n =>
      simp only at h
      split at h
      · cases h; exact keysSub_refl _
      · split at h
        · cases h; exact keysSub_refl _
        · rename_i hmiss e harena
          cases hd : inferTypeDispatch a (inferType f a) (aset c n (.error "Recursive definition" (some n))) n e.node with
          | none => rw [hd] at h; simp at h
          | some pr =>
            obtain ⟨t2, c2⟩ := pr
            rw [hd] at h
            cases h
            have hrec : RecurMono (inferType f a) := fun c0 n0 t0 c0' hh => ih a c0 n0 t0 c0' hh
            exact keysSub_trans (keysSub_aset c n _)
              (keysSub_trans (inferTypeDispatch_keysSub hrec hd) (keysSub_aset c2 n _))

theorem arena_get_lt_size {a : Arena} {n : Nat} {e : ArenaEntry}
    (h : a.get n = some e) : n < a.size := by
  by_contra hge
  push_neg at hge
  have : a.nodes[n]? = none := List.getElem?_eq_none hge
  rw [Arena.get, this] at h
  cases h

theorem inferNamedElementReference_total {a : Arena} {recur : Recur} {bound : Nat}
    (htot : RecurTotal a recur bound) {c : Cache} {e : Nat}
    (hc : uncachedCount a c < bound) :
    (inferNamedElementReference a recur c e).isSome = true := by
  unfold inferNamedElementReference
  split
  · split
    · rfl
    · split
      · rfl
      · split
        · rfl
        · exact htot _ _ hc
  · exact htot _ _ hc

theorem inferExplicitOperationCall_total {a : Arena} {recur : Recur} {bound : Nat}
    (htot : RecurTotal a recur bound) {c : Cache} {n : Nat} {args : List Nat}
    {rt : TypeDescription} (hc : uncachedCount a c < bound) :
    (inferExplicitOperationCall recur c n args rt).isSome = true := by
  unfold inferExplicitOperationCall
  split
  · rename_i et rb lb arg
    have h1 := htot c (some arg) hc
    obtain ⟨⟨it, c2⟩, e1⟩ := Option.isSome_iff_exists.mp h1
    rw [e1]
    simp only []
    split <;> rfl
  · rfl

theorem inferUnaryExpressionType_total {a : Arena} {recur : Recur} {bound : Nat}
    (htot : RecurTotal a recur bound) {c : Cache} {op : String} {value n : Nat}
    (hc : uncachedCount a c < bound) :
    (inferUnaryExpressionType recur c op value n).isSome = true := by
  unfold inferUnaryExpressionType
  have h1 := htot c (some value) hc
  obtain ⟨⟨vt, c2⟩, e1⟩ := Option.isSome_iff_exists.mp h1
  rw [e1]
  simp only []
  repeat' split
  all_goals rfl

theorem inferBinaryExpressionType_total {a : Arena} {recur : Recur} {bound : Nat}
    (hmono : RecurMono recur) (htot : RecurTotal a recur bound) {c : Cache}
    {op : String} {left right n : Nat} (hc : uncachedCount a c < bound) :
    (inferBinaryExpressionType recur c op left right n).isSome = true := by
  unfold inferBinaryExpressionType
  have h1 := htot c (some left) hc
  obtain ⟨⟨lt, c1⟩, e1⟩ := Option.isSome_iff_exists.mp h1
  rw [e1]
  have hc1 : uncachedCount a c1 ≤ uncachedCount a c := uncachedCount_mono a (hmono _ _ _ _ e1)
  have h2 := htot c1 (some right) (lt_of_le_of_lt hc1 hc)
  obtain ⟨⟨rt, c2⟩, e2⟩ := Option.isSome_iff_exists.mp h2
  simp only []
  rw [e2]
  simp only []
  repeat' split
  all_goals rfl

theorem inferMemberCallType_total {a : Arena} {recur : Recur} {bound : Nat}
    (hmono : RecurMono recur) (htot : RecurTotal a recur bound) {c : Cache}
    {previous : Option Nat} {element : Option RefInfo} {eoc : Bool}
    {args : List Nat} {n : Nat} (hc : uncachedCount a c < bound) :
    (inferMemberCallType a recur c previous element eoc args n).isSome = true := by
  unfold inferMemberCallType
  split
  · split
    · rfl
    · split
      · rfl
      · split
        · split
          · exact inferNamedElementReference_total htot hc
          · rfl
        · rfl
  · rename_i p
    have h1 := htot c (some p) hc
    obtain ⟨⟨recvT, c1⟩, e1⟩ := Option.isSome_iff_exists.mp h1
    rw [e1]
    simp only []
    have hc1 : uncachedCount a c1 ≤ uncachedCount a c := uncachedCount_mono a (hmono _ _ _ _ e1)
    split
    · rfl
    · split
      · exact inferExplicitOperationCall_total htot (lt_of_le_of_lt hc1 hc)
      · split <;> rfl

theorem inferTypeDispatch_total {a : Arena} {recur : Recur} {bound : Nat}
    (hmono : RecurMono recur) (htot : RecurTotal a recur bound) {c : Cache}
    {n : Nat} {node : Node} (hc : uncachedCount a c < bound) :
    (inferTypeDispatch a recur c n node).isSome = true := by
  unfold inferTypeDispatch
  split
  all_goals first
  | rfl
  | exact inferMemberCallType_total hmono htot hc
  | exact inferUnaryExpressionType_total htot hc
  | exact inferBinaryExpressionType_total hmono htot hc
  | exact htot _ _ hc

/-- Termination and totality of the inference engine: with one fuel unit per
not-yet-memoized node, plus one, inferType always produces an answer. The
sentinel stored before dispatching removes the current node from the
unmemoized set, so every nested call works below a strictly smaller bound. -/
theorem inferType_total : ∀ (fuel : Nat) (a : Arena) (c : Cache) (nopt : Option Nat),
    uncachedCount a c < fuel → (inferType fuel a c nopt).isSome = true := by
  intro fuel
  induction fuel with
  | zero => intro a c nopt h; omega
  | succ f ih =>
    intro a c nopt hlt
    unfold inferType
    match nopt with
    | none => rfl
    | some n =>
      simp only []
      split
      · rfl
      · rename_i hmiss
        split
        · rfl
        · rename_i e harena
          have hsize : n < a.size := arena_get_lt_size harena
          have hdec := uncachedCount_aset_lt a c n
            (.error "Recursive definition" (some n)) hmiss hsize
          have hbound : uncachedCount a (aset c n (.error "Recursive definition" (some n))) < f := by
            omega
          have hmono : RecurMono (inferType f a) :=
            fun c0 n0 t0 c0' hh => inferType_keysSub f a c0 n0 t0 c0' hh
          have htot : RecurTotal a (inferType f a) f :=
            fun c0 n0 h0 => ih a c0 n0 h0
          have hd := @inferTypeDispatch_total a (inferType f a) f hmono htot
            (aset c n (.error "Recursive definition" (some n))) n e.node hbound
          obtain ⟨⟨t2, c2⟩, e2⟩ := Option.isSome_iff_exists.mp hd
          rw [e2]
          rfl

theorem isAssignable_record_record (fa fb : List (String × TypeDescription)) :
    isAssignable (.record fa) (.record fb) = recordFieldsAssignable fa fb := by
  rw [isAssignable]
  simp [isErrorType, TypeDescription.tag]

theorem recordFieldsAssignable_iff (fb : List (String × TypeDescription)) :
    ∀ fa, recordFieldsAssignable fa fb = true ↔
      ∀ p ∈ fa, ∃ t', aget fb p.1 = some t' ∧ isAssignable p.2 t' = true := by
  intro fa
  induction fa with
  | nil => simp [recordFieldsAssignable]
  | cons hd tl ih =>
    obtain ⟨nm, ft⟩ := hd
    rw [recordFieldsAssignable]
    cases hget : aget fb nm with
    | none =>
      simp only []
      constructor
      · intro h; cases h
      · intro h
        obtain ⟨t', ht', _⟩ := h (nm, ft) (by simp)
        rw [hget] at ht'
        cases ht'
    | some t' =>
      simp only [Bool.and_eq_true, ih]
      constructor
      · rintro ⟨h1, h2⟩ p hp
        rcases List.mem_cons.mp hp with hchl | htl
        · subst hchl
          exact ⟨t', hget, h1⟩
        · exact h2 p htl
      · intro h
        refine ⟨?_, fun p hp => h p (List.mem_cons_of_mem _ hp)⟩
        obtain ⟨t2, ht2, ha⟩ := h (nm, ft) (by simp)
        rw [hget] at ht2
        cases ht2
        exact ha

/-- Claim C2, counterexample: the claim says isAssignable is fail-open when
either side is the error type or the unknown type, but assigning a number to
an unknown target returns false, so unknown is not fail-open. -/
theorem isAssignable_unknown_number_false :
    isAssignable TypeDescription.unknown (.number none none none) = false := by
  simp [isAssignable, isErrorType, isNumberType, isStringType, isDateType,
    isTimeType, isDateTimeType, TypeDescription.tag]

/-- Claim C2, amended: isAssignable returns true whenever either side is the
error type; the unknown type is compatible only with itself - pairing
unknown with any non-error, non-unknown type yields false in both
directions. -/
theorem isAssignable_fail_open_error_only :
    (∀ tA tB : TypeDescription, (isErrorType tA || isErrorType tB) = true →
      isAssignable tA tB = true)
    ∧ isAssignable .unknown .unknown = true
    ∧ (∀ tB : TypeDescription, isErrorType tB = false → isUnknownType tB = false →
        isAssignable .unknown tB = false ∧ isAssignable tB .unknown = false) := by
  refine ⟨?_, ?_, ?_⟩
  · intro tA tB h
    rw [isAssignable.eq_def]
    simp [h]
  · simp [isAssignable, isErrorType, TypeDescription.tag]
  · intro tB herr hunk
    cases tB <;> simp_all [isAssignable, isErrorType, isUnknownType, isNumberType,
      isStringType, isDateType, isTimeType, isDateTimeType, TypeDescription.tag]

theorem isAssignable_fail_open_error_only_witness :
    isAssignable (.error "boom" none) (.number none none none) = true
    ∧ isAssignable (.number none none none) (.error "boom" none) = true
    ∧ isAssignable .unknown (.string none none) = false
    ∧ isAssignable (.string none none) .unknown = false :=
  ⟨isAssignable_fail_open_error_only.1 _ _ (by decide),
   isAssignable_fail_open_error_only.1 _ _ (by decide),
   (isAssignable_fail_open_error_only.2.2 (.string none none) (by decide) (by decide)).1,
   (isAssignable_fail_open_error_only.2.2 (.string none none) (by decide) (by decide)).2⟩

/-- Claim C4: record assignability is width subtyping - true exactly when
every target field has a same-named source field of assignable type, so a
source may carry extra fields; in particular a record with fields a and b is
assignable to a target with only a, but not conversely. -/
theorem isAssignable_record_width_subtyping :
    (∀ fa fb : List (String × TypeDescription),
      isAssignable (.record fa) (.record fb) = true ↔
        ∀ p ∈ fa, ∃ t', aget fb p.1 = some t' ∧ isAssignable p.2 t' = true)
    ∧ isAssignable (.record [("a", .number none none none)])
        (.record [("a", .number none none none), ("b", .string none none)]) = true
    ∧ isAssignable (.record [("a", .number none none none), ("b", .string none none)])
        (.record [("a", .number none none none)]) = false := by
  refine ⟨?_, ?_, ?_⟩
  · intro fa fb
    rw [isAssignable_record_record]
    exact recordFieldsAssignable_iff fb fa
  · simp [isAssignable, recordFieldsAssignable, aget, isErrorType, isNumberType,
      isStringType, isDateType, isTimeType, isDateTimeType, TypeDescription.tag]
  · simp [isAssignable, recordFieldsAssignable, aget, isErrorType, isNumberType,
      isStringType, isDateType, isTimeType, isDateTimeType, TypeDescription.tag]

theorem isAssignable_record_width_subtyping_witness :
    ∀ p ∈ [("a", TypeDescription.number none none none)],
      ∃ t', aget [("a", TypeDescription.number none none none),
          ("b", TypeDescription.string none none)] p.1 = some t'
        ∧ isAssignable p.2 t' = true :=
  (isAssignable_record_width_subtyping.1 _ _).mp
    isAssignable_record_width_subtyping.2.1

theorem sizeOf_snd_lt_of_mem {l : List (String × TypeDescription)}
    {p : String × TypeDescription} (h : p ∈ l) : sizeOf p.2 < sizeOf l := by
  induction l with
  | nil => cases h
  | cons hd tl ih =>
    rcases List.mem_cons.mp h with hh | ht
    · subst hh
      obtain ⟨k, v⟩ := p
      simp
      omega
    · have := ih ht
      simp
      omega

theorem aget_of_mem_nodup {l : List (String × TypeDescription)}
    (hnd : distinctKeys (l.map Prod.fst) = true) {k : String} {v : TypeDescription}
    (hm : (k, v) ∈ l) : aget l k = some v := by
  induction l with
  | nil => cases hm
  | cons hd tl ih =>
    obtain ⟨k0, v0⟩ := hd
    simp only [List.map_cons, distinctKeys, Bool.and_eq_true, Bool.not_eq_true'] at hnd
    rcases List.mem_cons.mp hm with hh | ht
    · cases hh
      simp [aget]
    · have hk : k0 ≠ k := by
        intro hk0
        subst hk0
        have : k0 ∈ tl.map Prod.fst := List.mem_map.mpr ⟨(k0, v), ht, rfl⟩
        have hc : (tl.map Prod.fst).contains k0 = true := List.elem_eq_true_of_mem this
        rw [hnd.1] at hc
        cases hc
      rw [aget]
      simp only [hk, if_false]
      exact ih hnd.2 ht

theorem wfFields_mem {l : List (String × TypeDescription)} (hwf : wfFields l = true)
    {p : String × TypeDescription} (hm : p ∈ l) : wfType p.2 = true := by
  induction l with
  | nil => cases hm
  | cons hd tl ih =>
    obtain ⟨k0, v0⟩ := hd
    rw [wfFields, Bool.and_eq_true] at hwf
    rcases List.mem_cons.mp hm with hh | ht
    · subst hh
      exact hwf.1
    · exact ih hwf.2 ht

theorem isAssignable_refl_sized : ∀ (k : Nat) (t : TypeDescription), sizeOf t < k →
    wfType t = true → isAssignable t t = true := by
  intro k
  induction k with
  | zero => intro t h; omega
  | succ k ih =>
    intro t hsz hwf
    match t with
    | .error m s => rw [isAssignable.eq_def]; simp [isErrorType, TypeDescription.tag]
    | .boolean l => rw [isAssignable.eq_def]; simp [isErrorType, TypeDescription.tag]
    | .number l p s => rw [isAssignable.eq_def]; simp [isErrorType, TypeDescription.tag]
    | .string l len => rw [isAssignable.eq_def]; simp [isErrorType, TypeDescription.tag]
    | .date => rw [isAssignable.eq_def]; simp [isErrorType, TypeDescription.tag]
    | .time => rw [isAssignable.eq_def]; simp [isErrorType, TypeDescription.tag]
    | .datetime => rw [isAssignable.eq_def]; simp [isErrorType, TypeDescription.tag]
    | .unknown => rw [isAssignable.eq_def]; simp [isErrorType, TypeDescription.tag]
    | .array et rb lb =>
      rw [isAssignable.eq_def]
      simp only [isErrorType, TypeDescription.tag]
      have het : sizeOf et < k := by simp at hsz; omega
      have := ih et het (by rw [wfType] at hwf; exact hwf)
      simp [this]
    | .user bt =>
      rw [isAssignable.eq_def]
      simp only [isErrorType, TypeDescription.tag]
      have hbt : sizeOf bt < k := by simp at hsz; omega
      have := ih bt hbt (by rw [wfType] at hwf; exact hwf)
      simp [this]
    | .record fa =>
      rw [isAssignable_record_record, recordFieldsAssignable_iff]
      intro p hp
      rw [wfType, Bool.and_eq_true] at hwf
      refine ⟨p.2, ?_, ?_⟩
      · exact aget_of_mem_nodup hwf.1 (by obtain ⟨a, b⟩ := p; exact hp)
      · have hp2 : sizeOf p.2 < k := by
          have h1 := sizeOf_snd_lt_of_mem hp
          simp at hsz
          omega
        exact ih p.2 hp2 (wfFields_mem hwf.2 hp)

/-- Claim C9: assignability is reflexive - for every well-formed type
description (record field maps have distinct keys at every level, the Map
representation invariant of the source), isAssignable T T returns true;
nested arrays, records and user types included. The claim restricts itself
to non-error, non-unknown T; reflexivity in fact also holds for those two. -/
theorem isAssignable_refl (t : TypeDescription) (hwf : wfType t = true) :
    isAssignable t t = true :=
  isAssignable_refl_sized (sizeOf t + 1) t (by omega) hwf

theorem isAssignable_refl_witness :
    isAssignable
      (.record [("a", .number none none none),
        ("b", .array (.user (.record [("c", .string none none)])) 10 (some 1))])
      (.record [("a", .number none none none),
        ("b", .array (.user (.record [("c", .string none none)])) 10 (some 1))]) = true :=
  isAssignable_refl _ (by decide)

/-- The pairwise comparison condition of the source is the same as: both
operands have the same tag and that tag is a comparable kind, or the
operator is equality and both operands are boolean. -/
theorem comparison_cond_iff (op : String) (lt rt : TypeDescription) :
    (isNumberType lt && isNumberType rt || isStringType lt && isStringType rt ||
      isDateType lt && isDateType rt || isTimeType lt && isTimeType rt ||
      isDateTimeType lt && isDateTimeType rt ||
      decide (op = "=") && isBooleanType lt && isBooleanType rt) = true
    ↔ ((lt.tag = rt.tag ∧ lt.tag ∈ comparableKinds)
       ∨ (op = "=" ∧ isBooleanType lt = true ∧ isBooleanType rt = true)) := by
  simp only [isNumberType, isStringType, isDateType, isTimeType, isDateTimeType,
    isBooleanType, comparableKinds, Bool.or_eq_true, Bool.and_eq_true, beq_iff_eq,
    decide_eq_true_eq, List.mem_cons, List.mem_singleton, List.not_mem_nil, or_false]
  constructor
  · rintro (((((⟨h1, h2⟩ | ⟨h1, h2⟩) | ⟨h1, h2⟩) | ⟨h1, h2⟩) | ⟨h1, h2⟩) | ⟨⟨h1, h2⟩, h3⟩)
    · exact Or.inl ⟨by rw [h1, h2], Or.inl h1⟩
    · exact Or.inl ⟨by rw [h1, h2], Or.inr (Or.inl h1)⟩
    · exact Or.inl ⟨by rw [h1, h2], Or.inr (Or.inr (Or.inl h1))⟩
    · exact Or.inl ⟨by rw [h1, h2], Or.inr (Or.inr (Or.inr (Or.inl h1)))⟩
    · exact Or.inl ⟨by rw [h1, h2], Or.inr (Or.inr (Or.inr (Or.inr h1)))⟩
    · exact Or.inr ⟨h1, h2, h3⟩
  · rintro (⟨heq, hmem⟩ | ⟨h1, h2, h3⟩)
    · rcases hmem with h | h | h | h | h
      · exact Or.inl (Or.inl (Or.inl (Or.inl (Or.inl ⟨h, by rw [← heq, h]⟩))))
      · exact Or.inl (Or.inl (Or.inl (Or.inl (Or.inr ⟨h, by rw [← heq, h]⟩))))
      · exact Or.inl (Or.inl (Or.inl (Or.inr ⟨h, by rw [← heq, h]⟩)))
      · exact Or.inl (Or.inl (Or.inr ⟨h, by rw [← heq, h]⟩))
      · exact Or.inl (Or.inr ⟨h, by rw [← heq, h]⟩)
    · exact Or.inr ⟨⟨h1, h2⟩, h3⟩

/-- Claim C6: for a comparison operator, once both operands infer to
non-error types, the whole expression infers to boolean exactly when both
operands have the same one of the kinds number, string, date, time or
datetime, or the operator is equality and both operands are boolean; every
other pairing infers to the incompatible-comparison error. -/
theorem inferBinary_comparison_boolean :
    ∀ (fuel : Nat) (a : Arena) (c : Cache) (op : String) (l r n : Nat)
      (lt rt : TypeDescription) (c1 c2 : Cache),
    op ∈ comparisonOperators →
    inferType fuel a c (some l) = some (lt, c1) →
    inferType fuel a c1 (some r) = some (rt, c2) →
    isErrorType lt = false → isErrorType rt = false →
    (inferBinaryExpressionType (inferType fuel a) c op l r n = some (.boolean none, c2)
      ↔ ((lt.tag = rt.tag ∧ lt.tag ∈ comparableKinds)
         ∨ (op = "=" ∧ isBooleanType lt = true ∧ isBooleanType rt = true)))
    ∧ (¬((lt.tag = rt.tag ∧ lt.tag ∈ comparableKinds)
         ∨ (op = "=" ∧ isBooleanType lt = true ∧ isBooleanType rt = true)) →
      inferBinaryExpressionType (inferType fuel a) c op l r n
        = some (.error "Incompatible types for comparison" (some n), c2)) := by
  intro fuel a c op l r n lt rt c1 c2 hop h1 h2 herrl herrr
  have hcontains : comparisonOperators.contains op = true := List.elem_eq_true_of_mem hop
  simp only [comparisonOperators] at hcontains
  unfold inferBinaryExpressionType
  rw [h1]
  simp only []
  rw [h2]
  simp only [herrl, herrr, Bool.or_self]
  rw [if_neg (by simp), if_pos hcontains]
  constructor
  · constructor
    · intro hsome
      split at hsome
      · rename_i hcond
        exact (comparison_cond_iff op lt rt).mp hcond
      · simp at hsome
    · intro hR
      rw [if_pos ((comparison_cond_iff op lt rt).mpr hR)]
  · intro hnot
    rw [if_neg (fun hcond => hnot ((comparison_cond_iff op lt rt).mp hcond))]

theorem inferBinary_comparison_boolean_witness :
    inferBinaryExpressionType (inferType 2 cmpWitnessArena) [] "<" 1 2 0
      = some (.boolean none, [(1, .number (some 1) none none), (2, .number (some 2) none none)]) :=
  ((inferBinary_comparison_boolean 2 cmpWitnessArena [] "<" 1 2 0
      (.number (some 1) none none) (.number (some 2) none none)
      [(1, .number (some 1) none none)]
      [(1, .number (some 1) none none), (2, .number (some 2) none none)]
      (by decide) rfl rfl rfl rfl).1).mpr (Or.inl (by decide))

/-- Claim C5: isAssignable rejects assigning a number to a string target even
though the plus operator accepts mixed string and number operands - when one
operand of plus infers to string and the other to string, number or boolean,
the expression infers to string; with any other second operand kind it
infers to the concatenation error. -/
theorem assignability_concat_asymmetry :
    isAssignable (.string none none) (.number none none none) = false
    ∧ (∀ (fuel : Nat) (a : Arena) (c : Cache) (l r n : Nat)
        (lt rt : TypeDescription) (c1 c2 : Cache) (otherType : TypeDescription),
        inferType fuel a c (some l) = some (lt, c1) →
        inferType fuel a c1 (some r) = some (rt, c2) →
        isErrorType lt = false → isErrorType rt = false →
        (isStringType lt || isStringType rt) = true →
        otherType = (if isStringType lt = true then rt else lt) →
        ((isStringType otherType || isNumberType otherType || isBooleanType otherType) = true →
          inferBinaryExpressionType (inferType fuel a) c "+" l r n
            = some (.string none none, c2))
        ∧ ((isStringType otherType || isNumberType otherType || isBooleanType otherType) = false →
          inferBinaryExpressionType (inferType fuel a) c "+" l r n
            = some (.error "Cannot concatenate with string" (some n), c2))) := by
  constructor
  · simp [isAssignable, isErrorType, isNumberType, isStringType, isDateType,
      isTimeType, isDateTimeType, TypeDescription.tag]
  · intro fuel a c l r n lt rt c1 c2 otherType h1 h2 herrl herrr hstr hother
    unfold inferBinaryExpressionType
    rw [h1]
    simp only []
    rw [h2]
    simp only [herrl, herrr, Bool.or_self]
    rw [if_neg (by simp), if_neg (by decide), if_neg (by decide), if_pos (by decide),
      if_pos (by simp [hstr])]
    subst hother
    constructor
    · intro hok
      rw [if_pos hok]
    · intro hbad
      rw [if_neg (by simp [hbad])]

theorem assignability_concat_asymmetry_witness :
    inferBinaryExpressionType (inferType 2 concatWitnessArena) [] "+" 1 2 0
      = some (.string none none,
          [(1, .number (some 1) none none), (2, .string (some 2) none)]) :=
  ((assignability_concat_asymmetry.2 2 concatWitnessArena [] 1 2 0
      (.number (some 1) none none) (.string (some 2) none)
      [(1, .number (some 1) none none)]
      [(1, .number (some 1) none none), (2, .string (some 2) none)]
      (.number (some 1) none none)
      rfl rfl rfl rfl (by decide) rfl).1 (by decide))

/-- Claim C7: on a receiver of array type, an explicit call with exactly one
argument inferring to number yields the element type of the array; any
explicit call of a different shape (for example two arguments) yields the
unimplemented function-call error; plain property access on the array
yields number for the name length and an error for every other name. -/
theorem inferMemberCall_array_operations :
    ∀ (fuel : Nat) (a : Arena) (c : Cache) (p n : Nat) (el : Option RefInfo)
      (args : List Nat) (et : TypeDescription) (rb : Nat) (lb : Option Nat) (c1 : Cache),
    inferType fuel a c (some p) = some (.array et rb lb, c1) →
    (∀ (arg : Nat) (it : TypeDescription) (c2 : Cache), args = [arg] →
      inferType fuel a c1 (some arg) = some (it, c2) → isNumberType it = true →
      inferMemberCallType a (inferType fuel a) c (some p) el true args n = some (et, c2))
    ∧ (args.length ≠ 1 →
      inferMemberCallType a (inferType fuel a) c (some p) el true args n
        = some (.error "Function call type inference not implemented" (some n), c1))
    ∧ (∀ e0 : RefInfo, e0.refText = "length" →
      inferMemberCallType a (inferType fuel a) c (some p) (some e0) false args n
        = some (.number none none none, c1))
    ∧ (∀ e0 : RefInfo, e0.refText ≠ "length" →
      inferMemberCallType a (inferType fuel a) c (some p) (some e0) false args n
        = some (.error ("Property '" ++ e0.refText ++ "' not found on array type") (some n), c1)) := by
  intro fuel a c p n el args et rb lb c1 h0
  have herr : isErrorType (.array et rb lb) = false := by
    simp [isErrorType, TypeDescription.tag]
  refine ⟨?_, ?_, ?_, ?_⟩
  · intro arg it c2 hargs hit hnum
    subst hargs
    unfold inferMemberCallType
    simp only []
    rw [h0]
    simp only [herr]
    rw [if_neg (by simp)]
    simp only [if_true]
    unfold inferExplicitOperationCall
    simp only []
    rw [hit]
    simp only []
    rw [if_pos hnum]
  · intro hlen
    unfold inferMemberCallType
    simp only []
    rw [h0]
    simp only [herr]
    rw [if_neg (by simp)]
    simp only [if_true]
    unfold inferExplicitOperationCall
    match args with
    | [] => rfl
    | [a1] => exact absurd rfl hlen
    | a1 :: a2 :: rest => rfl
  · intro e0 hname
    unfold inferMemberCallType
    simp only []
    rw [h0]
    simp only [herr]
    rw [if_neg (by simp), if_neg (by simp)]
    simp only [inferPropertyAccess, hname]
    rfl
  · intro e0 hname
    unfold inferMemberCallType
    simp only []
    rw [h0]
    simp only [herr]
    rw [if_neg (by simp), if_neg (by simp)]
    simp only [inferPropertyAccess]
    rw [if_neg hname]

theorem inferMemberCall_array_operations_witness :
    inferMemberCallType arrWitnessArena (inferType 2 arrWitnessArena) [] (some 1) none true [2] 0
      = some (.number none none none,
          [(1, .array (.number none none none) 10 (some 1)), (2, .number (some 2) none none)])
    ∧ inferMemberCallType arrWitnessArena (inferType 2 arrWitnessArena) [] (some 1) none true [2, 2] 0
      = some (.error "Function call type inference not implemented" (some 0),
          [(1, .array (.number none none none) 10 (some 1))])
    ∧ inferMemberCallType arrWitnessArena (inferType 2 arrWitnessArena) [] (some 1)
        (some ⟨"length", none⟩) false [] 0
      = some (.number none none none, [(1, .array (.number none none none) 10 (some 1))])
    ∧ inferMemberCallType arrWitnessArena (inferType 2 arrWitnessArena) [] (some 1)
        (some ⟨"foo", none⟩) false [] 0
      = some (.error "Property 'foo' not found on array type" (some 0),
          [(1, .array (.number none none none) 10 (some 1))]) :=
  ⟨(inferMemberCall_array_operations 2 arrWitnessArena [] 1 0 none [2]
      (.number none none none) 10 (some 1)
      [(1, .array (.number none none none) 10 (some 1))] rfl).1 2
      (.number (some 2) none none)
      [(1, .array (.number none none none) 10 (some 1)), (2, .number (some 2) none none)]
      rfl rfl rfl,
   (inferMemberCall_array_operations 2 arrWitnessArena [] 1 0 none [2, 2]
      (.number none none none) 10 (some 1)
      [(1, .array (.number none none none) 10 (some 1))] rfl).2.1 (by decide),
   (inferMemberCall_array_operations 2 arrWitnessArena [] 1 0 none []
      (.number none none none) 10 (some 1)
      [(1, .array (.number none none none) 10 (some 1))] rfl).2.2.1 ⟨"length", none⟩ rfl,
   (inferMemberCall_array_operations 2 arrWitnessArena [] 1 0 none []
      (.number none none none) 10 (some 1)
      [(1, .array (.number none none none) 10 (some 1))] rfl).2.2.2 ⟨"foo", none⟩ (by decide)⟩

theorem findViewOrInterface_spec : ∀ (a : Arena) (fuel : Nat) (start : Option Nat) (i : Nat),
    findViewOrInterface a fuel start = some i →
    ∃ e, a.get i = some e ∧ (isViewNode e.node || isInterfaceNode e.node) = true := by
  intro a fuel
  induction fuel with
  | zero => intro start i h; simp [findViewOrInterface] at h
  | succ f ih =>
    intro start i h
    match start with
    | none => simp [findViewOrInterface] at h
    | some j =>
      unfold findViewOrInterface at h
      split at h
      · cases h
      · split at h
        · rename_i e hge hvi
          cases h
          exact ⟨e, hge, by simpa using hvi⟩
        · exact ih _ _ h

theorem inferSelfReference_unknown {a : Arena} {n i : Nat}
    (h : findViewOrInterface a (a.size + 1) (some n) = some i) :
    inferSelfReference a n = .unknown := by
  unfold inferSelfReference
  rw [h]
  obtain ⟨e, hge, _⟩ := findViewOrInterface_spec a (a.size + 1) (some n) i h
  simp only []
  rw [hge]
  split
  · split <;> rfl
  · simp_all

/-- Claim C8: a bare self reference inside a View or Interface infers to the
description of the nearest enclosing View, else the enclosing Interface, and
because row-type synthesis is unimplemented both are described as unknown,
so the memoized result of the reference is always the unknown type. -/
theorem inferType_self_unknown :
    ∀ (fuel : Nat) (a : Arena) (c : Cache) (n : Nat) (el : RefInfo) (eoc : Bool)
      (args : List Nat) (cont : Option Nat) (i : Nat),
    a.get n = some ⟨.memberCall none (some el) eoc args, cont⟩ →
    el.refText = "self" →
    aget c n = none →
    findViewOrInterface a (a.size + 1) (some n) = some i →
    inferType (fuel + 1) a c (some n)
      = some (.unknown, aset (aset c n (.error "Recursive definition" (some n))) n .unknown) := by
  intro fuel a c n el eoc args cont i hget hself hmiss hfind
  unfold inferType
  simp only []
  rw [hmiss]
  simp only []
  rw [hget]
  simp only []
  unfold inferTypeDispatch
  simp only []
  unfold inferMemberCallType
  simp only []
  rw [if_pos hself, inferSelfReference_unknown hfind]

theorem inferType_self_unknown_witness :
    inferType 1 selfWitnessArena [] (some 3) = some (.unknown, [(3, .unknown)]) :=
  inferType_self_unknown 0 selfWitnessArena [] 3 ⟨"self", none⟩ false [] (some 4) 2
    rfl rfl rfl rfl

theorem grammarType_named_ref_unknown (a : Arena) (target : Option Nat) :
    grammarTypeToTypeDescription a (some (.refTr target)) = .unknown := by
  unfold grammarTypeToTypeDescription typeRefDescription
  match target with
  | none => rfl
  | some tid =>
    simp only []
    split
    · split
      · rfl
      · split <;> rfl
    · rfl

/-- Claim C10: a TypeReference that is a named reference (to a Record or
UserType definition, or even unresolved) is described as unknown; hence a
Variable whose declaration group carries such a named type infers to
unknown rather than to the referenced description, and a UserType aliasing
such a named reference infers to the invalid-base-type error, since unknown
bases are rejected. -/
theorem named_type_references_unknown :
    (∀ (a : Arena) (target : Option Nat),
      grammarTypeToTypeDescription a (some (.refTr target)) = .unknown)
    ∧ (∀ (fuel : Nat) (a : Arena) (c : Cache) (v ci : Nat) (nm : String)
        (vs : List Nat) (target : Option Nat) (cc : Option Nat),
      a.get v = some ⟨.variableNode nm, some ci⟩ →
      a.get ci = some ⟨.varsOfType vs (.refTr target), cc⟩ →
      aget c v = none →
      inferType (fuel + 1) a c (some v)
        = some (.unknown, aset (aset c v (.error "Recursive definition" (some v))) v .unknown))
    ∧ (∀ (a : Arena) (u : Nat) (nm : String) (target : Option Nat) (cc : Option Nat),
      a.get u = some ⟨.userTypeNode nm (.refTr target), cc⟩ →
      inferUserType a u
        = .error ("Invalid base type for user type '" ++ nm ++ "'") (some u)) := by
  refine ⟨grammarType_named_ref_unknown, ?_, ?_⟩
  · intro fuel a c v ci nm vs target cc hgetv hgetci hmiss
    have hvar : inferVariableType a v = .unknown := by
      unfold inferVariableType
      rw [hgetv]
      simp [isVariableNode, hgetci, grammarType_named_ref_unknown]
    unfold inferType
    simp only []
    rw [hmiss]
    simp only []
    rw [hgetv]
    simp only []
    unfold inferTypeDispatch
    simp only []
    rw [hvar]
  · intro a u nm target cc hgetu
    unfold inferUserType
    rw [hgetu]
    simp only [grammarType_named_ref_unknown]
    rfl

theorem named_type_references_unknown_witness :
    grammarTypeToTypeDescription namedRefWitnessArena (some (.refTr (some 0))) = .unknown
    ∧ inferType 1 namedRefWitnessArena [] (some 2) = some (.unknown, [(2, .unknown)])
    ∧ inferUserType namedRefWitnessArena 3
      = .error "Invalid base type for user type 'U'" (some 3) :=
  ⟨named_type_references_unknown.1 namedRefWitnessArena (some 0),
   named_type_references_unknown.2.1 0 namedRefWitnessArena [] 2 1 "x" [2] (some 0) none
     rfl rfl rfl,
   named_type_references_unknown.2.2 namedRefWitnessArena 3 "U" (some 0) none rfl⟩

/-- Claim C3 (amended bound): the engine always answers - one fuel unit per
node not yet in the memo, plus one, suffices for inferType to return a
description on every arena, every memo and every start node; and a node
already carried by the memo (in particular one holding the provisional
recursive-definition sentinel stored before computing) is answered with
exactly that memo entry, the memo untouched, which is what bounds the
recursion when inference re-enters a node. -/
theorem inferType_terminates_memoized :
    (∀ (fuel : Nat) (a : Arena) (c : Cache) (nopt : Option Nat),
      uncachedCount a c < fuel → (inferType fuel a c nopt).isSome = true)
    ∧ (∀ (fuel : Nat) (a : Arena) (c : Cache) (n : Nat) (t : TypeDescription),
      aget c n = some t → inferType (fuel + 1) a c (some n) = some (t, c)) := by
  constructor
  · exact inferType_total
  · intro fuel a c n t h
    unfold inferType
    simp only []
    rw [h]

theorem inferType_terminates_memoized_witness :
    (inferType 3 cycleWitnessArena [] (some 0)).isSome = true
    ∧ inferType 1 cycleWitnessArena [(0, .error "Recursive definition" (some 0))] (some 0)
      = some (.error "Recursive definition" (some 0),
          [(0, .error "Recursive definition" (some 0))]) :=
  ⟨inferType_terminates_memoized.1 3 cycleWitnessArena [] (some 0) (by decide),
   inferType_terminates_memoized.2 0 cycleWitnessArena
     [(0, .error "Recursive definition" (some 0))] 0
     (.error "Recursive definition" (some 0)) rfl⟩

/-- Claim C3, counterexample to the parenthetical bound: the recursion depth
of inferType is not bounded by the tree depth. On the chain arena the tree
is five levels deep, yet inference started at the first field runs out of
six fuel units (one nesting level per unit), while twenty units suffice;
the correct bound is the number of not-yet-memoized nodes. -/
theorem inferType_depth_exceeds_tree_depth :
    treeDepth chainWitnessArena = 5
    ∧ inferType (treeDepth chainWitnessArena + 1) chainWitnessArena [] (some 3) = none
    ∧ (inferType 20 chainWitnessArena [] (some 3)).isSome = true :=
  ⟨rfl, rfl, rfl⟩

theorem foldl_inner_flatMap {α β γ : Type} (step : γ → β → γ) (f : α → List β) :
    ∀ (l : List α) (m : γ),
    l.foldl (fun acc x => (f x).foldl step acc) m = (l.flatMap f).foldl step m := by
  intro l
  induction l with
  | nil => intro m; rfl
  | cons x rest ih =>
    intro m
    rw [List.foldl_cons, List.flatMap_cons, List.foldl_append]
    exact ih _

theorem aget_foldl_aset (k : String) :
    ∀ (entries m : List (String × Nat)),
    aget (entries.foldl (fun acc p => aset acc p.1 p.2) m) k
      = (match entries.reverse.find? (fun p => p.1 == k) with
        | some p => some p.2
        | none => aget m k) := by
  intro entries
  induction entries with
  | nil => intro m; rfl
  | cons p rest ih =>
    intro m
    rw [List.foldl_cons, ih, List.reverse_cons, List.find?_append]
    cases hfind : rest.reverse.find? (fun q => q.1 == k) with
    | some q => rfl
    | none =>
      simp only [Option.none_or]
      by_cases hk : p.1 = k
      · simp only [List.find?_cons, hk]
        simp only [beq_self_eq_true]
        rw [← hk, aget_aset_self]
      · have : (p.1 == k) = false := beq_eq_false_iff_ne.mpr hk
        simp only [List.find?_cons, this]
        rw [aget_aset_ne _ _ _ _ hk]
        rfl

/-- Claim C1 (amended): for a variable reference site, the scope provider
builds its table from the views of the enclosing Interface only, in view
order, each view contributing first the variables of its local declaration
groups and then its named fields, later entries overwriting earlier
same-named ones; looking up any name yields the last matching entry of that
sequence. Interface-level declaration groups, top-level Model statements,
the identifier self and Type names are never added. -/
theorem getVariableScope_characterization :
    ∀ (a : Arena) (site ifaceId : Nat) (nm : String) (views types decls : List Nat)
      (cont : Option Nat) (m : List (String × Nat)) (name : String),
    findInterfaceContainer a (a.size + 1) (some site) = some ifaceId →
    a.get ifaceId = some ⟨.iface nm views types decls, cont⟩ →
    getVariableScope a site = some m →
    aget m name
      = (match (views.flatMap (viewScopeEntries a)).reverse.find? (fun p => p.1 == name) with
        | some p => some p.2
        | none => none) := by
  intro a site ifaceId nm views types decls cont m name hfind hget hm
  unfold getVariableScope at hm
  rw [hfind] at hm
  simp only [] at hm
  rw [hget] at hm
  simp only [] at hm
  cases hm
  rw [foldl_inner_flatMap, aget_foldl_aset]
  split <;> rfl

/-- Claim C1, counterexample: at a reference site inside a view of a model
with no declarations at all, the six-step table of the claim contains the
identifier self (bound to the enclosing view), while the table actually
built by the scope provider is empty - it never adds self (nor
interface-level variables, model statements or type names). -/
theorem getVariableScope_no_self :
    (getVariableScope selfWitnessArena 3).map (fun m => aget m "self") = some none
    ∧ (getVariableScopeSpec selfWitnessArena 3).map (fun m => (aget m "self").isSome)
      = some true :=
  ⟨rfl, rfl⟩

theorem getVariableScope_characterization_witness :
    aget [("x", 8), ("y", 7)] "x" = some 8 :=
  (getVariableScope_characterization scopeWitnessArena 9 1 "I" [2, 3] [] [] (some 0)
    [("x", 8), ("y", 7)] "x" rfl rfl rfl).trans rfl
